import Mathlib

/-!
Shallow embedding of the mod-file localization tool
(`src/main.rs`, `src/mcmoddb.rs`, `src/modrinthapi.rs`).

Strings are modelled by Lean `String`; character-level operations work on
`String.data` (a `List Char`).  Machine integers appearing in the side-tag
computation are modelled by `Int`.  Fallible operations return
`Option`/`Except`; external effects (the HTTP transport, the filesystem)
are modelled as explicit inputs.
-/

namespace MCModFile

/- ========================================================================
   Registry metadata client (`src/modrinthapi.rs`)
   ======================================================================== -/

/-- Struct `ModrinthProject` from `modrinthapi.rs`: the decoded JSON record. -/
structure ModrinthProject where
  client_side : String
  server_side : String
  categories : List String
deriving DecidableEq

/-- Outcome of the single HTTP interaction inside `get_modrinth_data`:
either `send()` fails, or a response arrives with a success flag and the
result of decoding the JSON body (`none` = decode failure). -/
inductive NetResponse where
  | sendFail
  | response (statusSuccess : Bool) (decoded : Option ModrinthProject)
deriving DecidableEq

/-- The `api_cache : DashMap<String, Option<ModrinthProject>>`, modelled as
an association list; insertion prepends, lookup takes the first match. -/
abbrev Cache := List (String × Option ModrinthProject)

/-- Operation `DashMap::get` on the cache. -/
def cacheGet (c : Cache) (id : String) : Option (Option ModrinthProject) :=
  (c.find? (fun p => p.1 == id)).map (·.2)

/-- Operation `DashMap::insert` on the cache. -/
def cacheInsert (c : Cache) (id : String) (v : Option ModrinthProject) : Cache :=
  (id, v) :: c

/-- Function `ModrinthApi::get_modrinth_data` (modrinthapi.rs:29-44).
Returns the result, the cache after the call, and whether a network
request was issued.  On a cache hit the cached value is returned with no
request.  On a miss, `send()` is awaited: if it fails, `.ok()?` returns
`None` early — without touching the cache; otherwise the body is decoded
on a success status (decode failure collapsing to `None`), `None` is used
for a non-success status, and that value is inserted into the cache. -/
def get_modrinth_data (cache : Cache) (net : NetResponse) (mod_id : String) :
    Option ModrinthProject × Cache × Bool :=
  match cacheGet cache mod_id with
  | some cached => (cached, cache, false)
  | none =>
    match net with
    | .sendFail => (none, cache, true)
    | .response ok decoded =>
      let data := if ok then decoded else none
      (data, cacheInsert cache mod_id data, true)

/- ========================================================================
   Archive identity extraction (`src/main.rs`, `extract_manifest_version`
   and `get_mod_info`)
   ======================================================================== -/

/-- Struct `ModInfo` from main.rs. -/
structure ModInfo where
  mod_id : String
  display_name : Option String
  version : String
deriving DecidableEq

/-- Rust `splitn(2, ':').nth(1)`: the remainder of the character list after the
first `':'`, or `none` if there is no colon. -/
def afterFirstColon : List Char → Option (List Char)
  | [] => none
  | c :: cs => if c = ':' then some cs else afterFirstColon cs

/-- Rust `str::trim` on a character list: whitespace removed from both
ends. -/
def trimChars (l : List Char) : List Char :=
  ((l.dropWhile Char.isWhitespace).reverse.dropWhile Char.isWhitespace).reverse

/-- Rust `line.starts_with("Implementation-Version:")`. -/
def isIVLine (line : String) : Bool :=
  "Implementation-Version:".data.isPrefixOf line.data

/-- Function `extract_manifest_version` (main.rs:33-43).  The manifest entry is
modelled as `Option (List String)`: `none` when `META-INF/MANIFEST.MF` is
absent (`by_name` fails).  The first line starting with
`Implementation-Version:` yields `splitn(2,':').nth(1).unwrap_or("").trim()`;
no such line yields the `anyhow` error, modelled as `none`. -/
def extract_manifest_version (manifest : Option (List String)) : Option String :=
  match manifest with
  | none => none
  | some lines =>
    match lines.find? isIVLine with
    | some line => some (String.mk (trimChars ((afterFirstColon line.data).getD [])))
    | none => none

/-- The version-resolution step of `get_mod_info` (main.rs:59-63): the
placeholder `${file.jarVersion}` is resolved from the manifest with
`unwrap_or_else(|_| "unknown")`; any other declared version passes
through. -/
def resolveVersion (declared : String) (manifest : Option (List String)) : String :=
  if declared = "$\x7bfile.jarVersion\x7d" then
    (extract_manifest_version manifest).getD "unknown"
  else declared

/- ========================================================================
   Tag and name resolution (`process_file`, main.rs:89-149)
   ======================================================================== -/

/-- The name resolution of main.rs:98-100:
`db_name.clone().or(modinfo.display_name.clone()).unwrap_or_else(|| modinfo.mod_id.clone())`. -/
def finalName (db_name display_name : Option String) (mod_id : String) : String :=
  match db_name with
  | some v => v
  | none =>
    match display_name with
    | some v => v
    | none => mod_id

/-- The side-string-to-code match of main.rs:107-118. -/
def sideCode (s : String) : Int :=
  if s = "unsupported" then -1
  else if s = "optional" then 0
  else if s = "required" then 1
  else -99

/-- The `(c, s)` pair match of main.rs:119-128. -/
def sideTagOfCodes (c s : Int) : String :=
  if c = 1 ∧ s = 1 then "[C&S]"
  else if c = 0 ∧ s = 0 then "[C|S]"
  else if c = -1 ∧ s = -1 then "[Toxic]"
  else if c = 1 ∧ s = 0 then "[C]"
  else if c = 0 ∧ s = 1 then "[S]"
  else if c = 1 ∧ s = -1 then "[!S]"
  else if c = -1 ∧ s = 1 then "[!C]"
  else ""

/-- Variable `side_tag` as computed in `process_file`: empty when no registry
record was obtained, else the table applied to the two codes. -/
def recordSideTag (record : Option ModrinthProject) : String :=
  match record with
  | none => ""
  | some info => sideTagOfCodes (sideCode info.client_side) (sideCode info.server_side)

/-- The category-translation map `categories.json`, modelled as an
association list; `HashMap::get` takes the first match. -/
abbrev TranslationMap := List (String × String)

/-- Lookup `state.category_map.get(cat).cloned().unwrap_or(cat.clone())`
(main.rs:134). -/
def translateCat (m : TranslationMap) (cat : String) : String :=
  ((m.find? (fun p => p.1 == cat)).map (·.2)).getD cat

/-- Rust `Vec::join(sep)`. -/
def joinSep (sep : String) : List String → String
  | [] => ""
  | [x] => x
  | x :: y :: ys => x ++ sep ++ joinSep sep (y :: ys)

/-- Variable `category_tag` as computed in `process_file` (main.rs:130-138): empty
when no registry record was obtained; otherwise the translated categories,
bracketed via `format!("[{}]", translated.join("]["))` when non-empty. -/
def recordCategoryTag (record : Option ModrinthProject) (m : TranslationMap) : String :=
  match record with
  | none => ""
  | some info =>
    let translated := info.categories.map (translateCat m)
    if translated.isEmpty then "" else "[" ++ joinSep "][" translated ++ "]"

/-- Composition `new_name = format!("{}{}{}-{}.jar", side_tag, category_tag, final_name, version)`
(main.rs:142-145). -/
def composeName (side_tag category_tag name version : String) : String :=
  side_tag ++ category_tag ++ name ++ "-" ++ version ++ ".jar"

/-- Membership in the unsafe-character class of main.rs:146-148. -/
def isUnsafeChar (c : Char) : Bool :=
  c = '/' || c = '\\' || c = ':' || c = '*' || c = '?' || c = '"' ||
  c = '<' || c = '>' || c = '|'

/-- Rust `new_name.replace(|c| matches!(c, ...), "")`: deletion of every unsafe
character. -/
def stripUnsafe (s : String) : String :=
  String.mk (s.data.filter (fun c => !isUnsafeChar c))

/- ========================================================================
   Rename step (`process_file`, main.rs:151-167)
   ======================================================================== -/

/-- The filesystem visible to the rename step: the set of existing paths,
as a list, plus whether the underlying `fs::rename` call would fail. -/
structure FsState where
  files : List String
  renameFails : Bool
deriving DecidableEq

/-- The conditional rename of main.rs:162-165:
`if path != new_path && !new_path.exists() { fs::rename(&path, &new_path)? }`.
Returns the filesystem after the step, or surfaces the `fs::rename`
error. -/
def renameStep (fs : FsState) (path new_path : String) : Except String FsState :=
  if path ≠ new_path ∧ ¬ (new_path ∈ fs.files) then
    if fs.renameFails then Except.error "rename failed"
    else Except.ok { fs with files := new_path :: fs.files.erase path }
  else Except.ok fs

/- ========================================================================
   Entry point (`main`, main.rs:204-247)
   ======================================================================== -/

/-- State of the optional local `categories.json` file as seen by `main`:
absent, present but unreadable, present but failing JSON parse, or
well-formed with the resulting map. -/
inductive CatFileState where
  | absent
  | unreadable
  | malformed
  | wellFormed (m : TranslationMap)
deriving DecidableEq

/-- One iteration outcome of `fs::read_dir`: an `Err` entry, or an entry
carrying whether it is a file, its extension, and whether `process_file`
on it succeeds. -/
inductive DirEntry where
  | entryErr
  | entry (isFile : Bool) (ext : Option String) (processOk : Bool)
deriving DecidableEq

/-- The per-entry loop of main.rs:233-244: an `Err` entry aborts `main`
via `?`; a `.jar` file entry is processed with its error caught
(`eprintln!` and continue); everything else is skipped. -/
def processEntries : List DirEntry → Except String Unit
  | [] => Except.ok ()
  | DirEntry.entryErr :: _ => Except.error "entry error"
  | DirEntry.entry _ _ _ :: rest => processEntries rest

/-- Function `main` (main.rs:204-247), modelled over its external inputs: the
`categories.json` state, whether `ModTranslationDb::init` succeeds,
whether the target path is a directory, and the result of `fs::read_dir`
(`none` = the call itself fails).  Steps in source order: load the
category map (`?` on read/parse), init the DB (`?`), check `is_dir`,
iterate the directory. -/
def runMain (cat : CatFileState) (dbInitOk : Bool) (isDir : Bool)
    (dirList : Option (List DirEntry)) : Except String Unit :=
  match cat with
  | .unreadable => Except.error "read categories.json failed"
  | .malformed => Except.error "parse categories.json failed"
  | _ =>
    if ¬ dbInitOk then Except.error "db init failed"
    else if ¬ isDir then Except.error "Path is not a dir"
    else
      match dirList with
      | none => Except.error "read_dir failed"
      | some entries => processEntries entries

/- ========================================================================
   Theorems
   ======================================================================== -/

/-- C1 (counterexample): with an empty cache and a failing HTTP send, the
fetch finds no cache entry, issues a network request, returns with the
cache still lacking an entry for the identifier — and a second identical
call issues a second network request. -/
theorem c1_counterexample :
    cacheGet ([] : Cache) "a" = none ∧
    (get_modrinth_data [] NetResponse.sendFail "a").2.2 = true ∧
    cacheGet (get_modrinth_data [] NetResponse.sendFail "a").2.1 "a" = none ∧
    (get_modrinth_data (get_modrinth_data [] NetResponse.sendFail "a").2.1
      NetResponse.sendFail "a").2.2 = true :=
  ⟨rfl, rfl, rfl, rfl⟩

/-- C1 (amended): on a cache miss, if the HTTP send fails the call returns
`none`, issues a request, and leaves the cache unchanged (no entry is
written); if a response arrives, the decoded value on a success status
(`none` on decode failure) or `none` on a non-success status is returned,
a request is issued, and that value is written to the cache, so the cache
afterwards contains an entry for the identifier. -/
theorem c1_fetch_cache_behavior (cache : Cache) (net : NetResponse) (mod_id : String)
    (hmiss : cacheGet cache mod_id = none) :
    (net = NetResponse.sendFail →
      get_modrinth_data cache net mod_id = (none, cache, true)) ∧
    (∀ ok decoded, net = NetResponse.response ok decoded →
      get_modrinth_data cache net mod_id =
        ((if ok then decoded else none),
          cacheInsert cache mod_id (if ok then decoded else none), true) ∧
      cacheGet (get_modrinth_data cache net mod_id).2.1 mod_id =
        some (if ok then decoded else none)) := by
  unfold get_modrinth_data
  rw [hmiss]
  constructor
  · rintro rfl
    rfl
  · rintro ok decoded rfl
    refine ⟨rfl, ?_⟩
    simp [cacheGet, cacheInsert]

/-- C1 witness. -/
theorem c1_fetch_cache_behavior_witness :
    cacheGet ([] : Cache) "a" = none ∧
    cacheGet (get_modrinth_data [] (NetResponse.response false none) "a").2.1 "a" =
      some none :=
  ⟨rfl, by
    have h := (c1_fetch_cache_behavior [] (NetResponse.response false none) "a" rfl).2
      false none rfl
    simpa using h.2⟩

/-- C2 (counterexample): an empty-string localized name together with a
present display name resolves to the empty string, not to the display
name — `Option::or` tests presence, not non-emptiness. -/
theorem c2_counterexample :
    finalName (some "") (some "D") "m" = "" ∧
    finalName (some "") (some "D") "m" ≠ "D" :=
  ⟨rfl, by decide⟩

/-- C2 (amended): the resolved name is the first PRESENT candidate in the
order localized name, display name, mod_id — a present localized name wins
even when it is the empty string, a present display name wins over the
mod_id even when empty, and only absence falls through. -/
theorem c2_first_present_wins (v w m : String) (d : Option String) :
    finalName (some v) d m = v ∧
    finalName none (some w) m = w ∧
    finalName none none m = m :=
  ⟨rfl, rfl, rfl⟩

/-- C5: the seven-row side-tag table, the string-to-code mapping with
`-99` for unknown strings, the empty tag for every pair outside the
table, and the empty tag for the absent-record case. -/
theorem c5_side_tag_table :
    (sideCode "unsupported" = -1 ∧ sideCode "optional" = 0 ∧
      sideCode "required" = 1) ∧
    (∀ s : String, s ≠ "unsupported" → s ≠ "optional" → s ≠ "required" →
      sideCode s = -99) ∧
    (sideTagOfCodes 1 1 = "[C&S]" ∧ sideTagOfCodes 0 0 = "[C|S]" ∧
      sideTagOfCodes (-1) (-1) = "[Toxic]" ∧ sideTagOfCodes 1 0 = "[C]" ∧
      sideTagOfCodes 0 1 = "[S]" ∧ sideTagOfCodes 1 (-1) = "[!S]" ∧
      sideTagOfCodes (-1) 1 = "[!C]") ∧
    (∀ c s : Int,
      (c, s) ∉ ([(1, 1), (0, 0), (-1, -1), (1, 0), (0, 1), (1, -1), (-1, 1)] :
        List (Int × Int)) →
      sideTagOfCodes c s = "") ∧
    recordSideTag none = "" ∧
    (∀ cs ss cats, recordSideTag (some ⟨cs, ss, cats⟩) =
      sideTagOfCodes (sideCode cs) (sideCode ss)) := by
  refine ⟨⟨by decide, by decide, by decide⟩, ?_, ?_, ?_, rfl, fun cs ss cats => rfl⟩
  · intro s h1 h2 h3
    unfold sideCode
    rw [if_neg h1, if_neg h2, if_neg h3]
  · exact ⟨by decide, by decide, by decide, by decide, by decide, by decide, by decide⟩
  · intro c s h
    simp only [List.mem_cons, List.not_mem_nil, or_false, Prod.mk.injEq, not_or] at h
    obtain ⟨h1, h2, h3, h4, h5, h6, h7⟩ := h
    unfold sideTagOfCodes
    split_ifs
    rfl

/-- C5 witness. -/
theorem c5_side_tag_table_witness :
    sideCode "x" = -99 ∧ sideTagOfCodes (-99) (-99) = "" :=
  ⟨c5_side_tag_table.2.1 "x" (by decide) (by decide) (by decide),
    c5_side_tag_table.2.2.2.1 (-99) (-99) (by decide)⟩

/-- C7: the rename step is a no-op returning the unchanged filesystem
exactly when the target equals the source or a file already exists at the
target; otherwise the rename is attempted, surfacing the filesystem error
when it fails and moving the file when it succeeds. -/
theorem c7_rename_noop (fs : FsState) (path new_path : String) :
    ((new_path = path ∨ new_path ∈ fs.files) →
      renameStep fs path new_path = Except.ok fs) ∧
    (new_path ≠ path → new_path ∉ fs.files → fs.renameFails = true →
      renameStep fs path new_path = Except.error "rename failed") ∧
    (new_path ≠ path → new_path ∉ fs.files → fs.renameFails = false →
      renameStep fs path new_path =
        Except.ok { fs with files := new_path :: fs.files.erase path }) := by
  refine ⟨?_, ?_, ?_⟩
  · intro h
    unfold renameStep
    rw [if_neg]
    rintro ⟨hne, hnm⟩
    rcases h with h | h
    · exact hne h.symm
    · exact hnm h
  · intro hne hnm hrf
    unfold renameStep
    rw [if_pos ⟨fun e => hne e.symm, hnm⟩, if_pos hrf]
  · intro hne hnm hrf
    unfold renameStep
    rw [if_pos ⟨fun e => hne e.symm, hnm⟩, if_neg (by simp [hrf])]

/-- C7 witness. -/
theorem c7_rename_noop_witness :
    renameStep ⟨["a.jar", "b.jar"], false⟩ "a.jar" "b.jar" =
      Except.ok ⟨["a.jar", "b.jar"], false⟩ ∧
    renameStep ⟨["a.jar"], false⟩ "a.jar" "c.jar" =
      Except.ok ⟨["c.jar"], false⟩ :=
  ⟨(c7_rename_noop ⟨["a.jar", "b.jar"], false⟩ "a.jar" "b.jar").1
      (Or.inr (by decide)),
    by
      have h := (c7_rename_noop ⟨["a.jar"], false⟩ "a.jar" "c.jar").2.2
        (by decide) (by decide) rfl
      simpa using h⟩

/-- C8: stripping the filesystem-unsafe characters is idempotent. -/
theorem c8_strip_idempotent (s : String) :
    stripUnsafe (stripUnsafe s) = stripUnsafe s := by
  unfold stripUnsafe
  apply String.ext
  simp [List.filter_filter]

/-- Helper: the directory iteration contains no `Err` entry. -/
def noEntryError : List DirEntry → Bool
  | [] => true
  | DirEntry.entryErr :: _ => false
  | DirEntry.entry _ _ _ :: rest => noEntryError rest

/-- The per-entry loop succeeds exactly when no entry errors, regardless
of the per-file processing outcomes. -/
theorem processEntries_ok_iff (l : List DirEntry) :
    processEntries l = Except.ok () ↔ noEntryError l = true := by
  induction l with
  | nil => simp [processEntries, noEntryError]
  | cons e rest ih =>
    cases e with
    | entryErr => simp [processEntries, noEntryError]
    | entry f x p => simpa [processEntries, noEntryError] using ih

/-- C3 (counterexample): with the translation store initializing fine and
the target path a directory, a present-but-malformed `categories.json`
still makes the process exit with failure. -/
theorem c3_counterexample :
    runMain CatFileState.malformed true true (some []) =
      Except.error "parse categories.json failed" ∧
    runMain CatFileState.malformed true true (some []) ≠ Except.ok () :=
  ⟨rfl, fun h => nomatch h⟩

/-- C3 (amended): the process exits successfully exactly when
`categories.json` is neither unreadable nor malformed (absent or
well-formed are both fine), the translation store initializes, the target
path is a directory, and the directory listing is obtained with no
failing entry; per-file processing failures never affect the exit
status. -/
theorem c3_exit_characterization (cat : CatFileState) (dbInitOk isDir : Bool)
    (dirList : Option (List DirEntry)) :
    runMain cat dbInitOk isDir dirList = Except.ok () ↔
      (cat ≠ CatFileState.unreadable ∧ cat ≠ CatFileState.malformed ∧
        dbInitOk = true ∧ isDir = true ∧
        ∃ entries, dirList = some entries ∧ noEntryError entries = true) := by
  cases cat <;>
    cases dbInitOk <;>
      cases isDir <;>
        cases dirList <;>
          simp [runMain, processEntries_ok_iff]

/-- C4 and C6 share no helpers with C3; the category-tag development
follows.  `bracketEach` renders a list of already-translated category
strings the way the spec describes the tag: each element individually
bracketed, concatenated in order. -/
def bracketEach : List String → String
  | [] => ""
  | e :: es => "[" ++ e ++ "]" ++ bracketEach es

/-- The `format!("[{}]", v.join("]["))` rendering used by the code agrees
with the per-element bracketing, including on the empty list. -/
theorem joinSep_brackets (l : List String) :
    (if l.isEmpty then "" else "[" ++ joinSep "][" l ++ "]") = bracketEach l := by
  induction l with
  | nil => rfl
  | cons x xs ih =>
    cases xs with
    | nil => simp [joinSep, bracketEach, String.append_empty]
    | cons y ys =>
      have ih2 : "[" ++ joinSep "][" (y :: ys) ++ "]" = bracketEach (y :: ys) := by
        simpa using ih
      show "[" ++ joinSep "][" (x :: y :: ys) ++ "]" = bracketEach (x :: y :: ys)
      rw [show bracketEach (x :: y :: ys) =
        "[" ++ x ++ "]" ++ bracketEach (y :: ys) from rfl, ← ih2]
      apply String.ext
      have hl : "[".data = ['['] := rfl
      have hr : "]".data = [']'] := rfl
      have hlr : "][".data = [']', '['] := rfl
      simp [joinSep, bracketEach, String.data_append, hl, hr, hlr]

/-- C6: the category tag is exactly the in-order concatenation of one
bracketed element per category, each independently substituted through
the translation map (identifier kept when unmapped); the element count
equals the category count, and an empty category sequence or an absent
record yields the empty tag. -/
theorem c6_category_tag (m : TranslationMap) (info : ModrinthProject) :
    recordCategoryTag (some info) m =
      bracketEach (info.categories.map (translateCat m)) ∧
    (info.categories.map (translateCat m)).length = info.categories.length ∧
    recordCategoryTag none m = "" ∧
    (info.categories = [] → recordCategoryTag (some info) m = "") := by
  refine ⟨?_, List.length_map _ _, rfl, ?_⟩
  · show (if (info.categories.map (translateCat m)).isEmpty then ""
      else "[" ++ joinSep "][" (info.categories.map (translateCat m)) ++ "]") =
      bracketEach (info.categories.map (translateCat m))
    exact joinSep_brackets _
  · intro h
    simp [recordCategoryTag, h]

/-- C6 witness. -/
theorem c6_category_tag_witness :
    recordCategoryTag (some ⟨"required", "optional", ["a", "b"]⟩)
        [("a", "x")] = "[x][b]" ∧
    recordCategoryTag (some ⟨"required", "optional", []⟩) [("a", "x")] = "" := by
  have h := c6_category_tag [("a", "x")] ⟨"required", "optional", ["a", "b"]⟩
  have h2 := c6_category_tag [("a", "x")] ⟨"required", "optional", []⟩
  exact ⟨by rw [h.1]; decide, h2.2.2.2 rfl⟩

/-- Helper: `afterFirstColon` skips a colon-free prefix and splits at the
first colon. -/
theorem afterFirstColon_no_colon (pre : List Char) (h : ':' ∉ pre) (t : List Char) :
    afterFirstColon (pre ++ ':' :: t) = some t := by
  induction pre with
  | nil => simp [afterFirstColon]
  | cons c cs ih =>
    have hc : c ≠ ':' := fun e => h (e ▸ List.mem_cons_self c cs)
    have hcs : ':' ∉ cs := fun m => h (List.mem_cons_of_mem _ m)
    simp [afterFirstColon, hc, ih hcs]

/-- Helper: the remainder after the first colon of a line starting with
the `Implementation-Version:` key is exactly what follows the key. -/
theorem afterFirstColon_iv (t : List Char) :
    afterFirstColon ("Implementation-Version:".data ++ t) = some t := by
  have h1 : "Implementation-Version:".data =
      "Implementation-Version".data ++ [':'] := rfl
  rw [h1, List.append_assoc, List.singleton_append]
  exact afterFirstColon_no_colon _ (by decide) t

/-- Helper: dropping the key length from such a line also leaves exactly
what follows the key. -/
theorem drop_iv_length (t : List Char) :
    ("Implementation-Version:".data ++ t).drop "Implementation-Version:".length = t := by
  have h1 : "Implementation-Version:".length =
      "Implementation-Version:".data.length := rfl
  rw [h1, List.drop_left]

/-- C4: a declared version other than `${file.jarVersion}` passes through
unchanged; the placeholder resolves to `unknown` when the manifest entry
is missing or no line starts with `Implementation-Version:`, and
otherwise to the trimmed remainder after the first colon of the first
such line. -/
theorem c4_version_resolution (declared : String) (manifest : Option (List String)) :
    (declared ≠ "$\x7bfile.jarVersion\x7d" → resolveVersion declared manifest = declared) ∧
    (manifest = none → resolveVersion "$\x7bfile.jarVersion\x7d" manifest = "unknown") ∧
    (∀ lines, manifest = some lines → lines.find? isIVLine = none →
      resolveVersion "$\x7bfile.jarVersion\x7d" manifest = "unknown") ∧
    (∀ lines line, manifest = some lines → lines.find? isIVLine = some line →
      resolveVersion "$\x7bfile.jarVersion\x7d" manifest =
        String.mk (trimChars (line.data.drop "Implementation-Version:".length))) := by
  refine ⟨?_, ?_, ?_, ?_⟩
  · intro h
    unfold resolveVersion
    rw [if_neg h]
  · rintro rfl
    rfl
  · rintro lines rfl hf
    simp [resolveVersion, extract_manifest_version, hf]
  · rintro lines line rfl hf
    have hpre : "Implementation-Version:".data <+: line.data := by
      have h1 := List.find?_some hf
      unfold isIVLine at h1
      exact ( List.isPrefixOf_iff_prefix).mp h1
    obtain ⟨t, ht⟩ := hpre
    have hx : afterFirstColon line.data = some t := by
      rw [← ht]
      exact afterFirstColon_iv t
    have hd : line.data.drop "Implementation-Version:".length = t := by
      rw [← ht]
      exact drop_iv_length t
    simp [resolveVersion, extract_manifest_version, hf, hx, hd]

/-- C4 witness. -/
theorem c4_version_resolution_witness :
    resolveVersion "1.0" (some []) = "1.0" ∧
    resolveVersion "$\x7bfile.jarVersion\x7d" none = "unknown" ∧
    resolveVersion "$\x7bfile.jarVersion\x7d"
      (some ["Foo: 1", "Implementation-Version: 1.2.3 "]) = "1.2.3" := by
  refine ⟨(c4_version_resolution "1.0" (some [])).1 (by decide),
    (c4_version_resolution "$\x7bfile.jarVersion\x7d" none).2.1 rfl, ?_⟩
  have h := (c4_version_resolution "$\x7bfile.jarVersion\x7d"
    (some ["Foo: 1", "Implementation-Version: 1.2.3 "])).2.2.2
    ["Foo: 1", "Implementation-Version: 1.2.3 "]
    "Implementation-Version: 1.2.3 " rfl (by decide)
  rw [h]
  decide

/-- Helper: stripping unsafe characters distributes over concatenation. -/
theorem stripUnsafe_append (a b : String) :
    stripUnsafe (a ++ b) = stripUnsafe a ++ stripUnsafe b := by
  apply String.ext
  simp [stripUnsafe, String.data_append, List.filter_append]

/-- Helper: trimming a string of only whitespace yields the empty
string. -/
theorem trimChars_all_whitespace (l : List Char) (h : ∀ c ∈ l, c.isWhitespace = true) :
    trimChars l = [] := by
  unfold trimChars
  rw [List.dropWhile_eq_nil_iff.mpr h]
  rfl

/-- C10: a manifest line carrying the `Implementation-Version:` key with
an all-whitespace remainder makes the extraction succeed with the empty
string, so the placeholder resolves to the empty string rather than
`unknown`, and the composed filename then ends in `-.jar` both before and
after the unsafe-character strip. -/
theorem c10_blank_impl_version (rest : List Char)
    (h : ∀ c ∈ rest, c.isWhitespace = true) :
    extract_manifest_version
      (some [String.mk ("Implementation-Version:".data ++ rest)]) = some "" ∧
    resolveVersion "$\x7bfile.jarVersion\x7d"
      (some [String.mk ("Implementation-Version:".data ++ rest)]) = "" ∧
    (∀ side cat nm : String,
      composeName side cat nm "" = (side ++ cat ++ nm) ++ "-.jar" ∧
      stripUnsafe (composeName side cat nm "") =
        stripUnsafe (side ++ cat ++ nm) ++ "-.jar") := by
  have hiv : isIVLine (String.mk ("Implementation-Version:".data ++ rest)) = true := by
    unfold isIVLine
    exact ( List.isPrefixOf_iff_prefix).mpr ⟨rest, rfl⟩
  have hfind : List.find? isIVLine [String.mk ("Implementation-Version:".data ++ rest)] =
      some (String.mk ("Implementation-Version:".data ++ rest)) :=
    List.find?_cons_of_pos _ hiv
  have heq : extract_manifest_version
      (some [String.mk ("Implementation-Version:".data ++ rest)]) =
      match List.find? isIVLine [String.mk ("Implementation-Version:".data ++ rest)] with
      | some line => some (String.mk (trimChars ((afterFirstColon line.data).getD [])))
      | none => none := rfl
  have hext : extract_manifest_version
      (some [String.mk ("Implementation-Version:".data ++ rest)]) = some "" := by
    rw [heq, hfind]
    show some (String.mk (trimChars
      ((afterFirstColon ("Implementation-Version:".data ++ rest)).getD []))) = some ""
    rw [afterFirstColon_iv]
    show some (String.mk (trimChars rest)) = some ""
    rw [trimChars_all_whitespace rest h]
  refine ⟨hext, ?_, ?_⟩
  · unfold resolveVersion
    rw [if_pos rfl, hext]
    rfl
  · intro side cat nm
    have hc : composeName side cat nm "" = (side ++ cat ++ nm) ++ "-.jar" := by
      apply String.ext
      have h1 : "-".data = ['-'] := rfl
      have h2 : ".jar".data = ['.', 'j', 'a', 'r'] := rfl
      have h3 : "-.jar".data = ['-', '.', 'j', 'a', 'r'] := rfl
      have h4 : ("" : String).data = [] := rfl
      simp [composeName, String.data_append, h1, h2, h3, h4]
    refine ⟨hc, ?_⟩
    rw [hc, stripUnsafe_append, show stripUnsafe "-.jar" = "-.jar" from by decide]

/-- C10 witness. -/
theorem c10_blank_impl_version_witness :
    (∀ c ∈ [' '], c.isWhitespace = true) ∧
    extract_manifest_version
      (some [String.mk ("Implementation-Version:".data ++ [' '])]) = some "" :=
  ⟨by decide, (c10_blank_impl_version [' '] (by decide)).1⟩

/-- C9: an optional/optional record produces the side tag `[C|S]`, and
after the unsafe-character strip the composed filename starts with
`[CS]`; the literal `[C|S]` can never occur in the stripped name, since
the stripped name contains no `|` character. -/
theorem c9_optional_pair_stripped (cats : List String) (cat_tag nm ver : String) :
    recordSideTag (some ⟨"optional", "optional", cats⟩) = "[C|S]" ∧
    "[CS]".data <+: (stripUnsafe (composeName "[C|S]" cat_tag nm ver)).data ∧
    ¬ "[C|S]".data <:+: (stripUnsafe (composeName "[C|S]" cat_tag nm ver)).data := by
  have hsplit : composeName "[C|S]" cat_tag nm ver =
      "[C|S]" ++ (cat_tag ++ (nm ++ ("-" ++ (ver ++ ".jar")))) := by
    simp [composeName, String.append_assoc]
  refine ⟨rfl, ?_, ?_⟩
  · rw [hsplit, stripUnsafe_append,
      show stripUnsafe "[C|S]" = "[CS]" from by decide, String.data_append]
    exact List.prefix_append _ _
  · intro hinf
    have hmem : '|' ∈ (stripUnsafe (composeName "[C|S]" cat_tag nm ver)).data :=
      hinf.subset (by decide)
    have hdata : (stripUnsafe (composeName "[C|S]" cat_tag nm ver)).data =
        (composeName "[C|S]" cat_tag nm ver).data.filter (fun c => !isUnsafeChar c) := rfl
    rw [hdata] at hmem
    have hbad := (List.mem_filter.mp hmem).2
    simp [isUnsafeChar] at hbad

/-- C9 witness. -/
theorem c9_optional_pair_stripped_witness :
    recordSideTag (some ⟨"optional", "optional", []⟩) = "[C|S]" ∧
    "[CS]".data <+: (stripUnsafe (composeName "[C|S]" "" "mod" "1.0")).data :=
  ⟨(c9_optional_pair_stripped [] "" "mod" "1.0").1,
    (c9_optional_pair_stripped [] "" "mod" "1.0").2.1⟩

/-- C2 witness: all four present/absent combinations at concrete
strings. -/
theorem c2_first_present_wins_witness :
    finalName (some "") (some "") "m" = "" ∧
    finalName none (some "") "m" = "" ∧
    finalName none none "m" = "m" :=
  ⟨(c2_first_present_wins "" "" "m" (some "")).1,
    (c2_first_present_wins "" "" "m" (some "")).2.1,
    (c2_first_present_wins "" "" "m" (some "")).2.2⟩

/-- C3 witness: a successful run with an absent category file, working
store, directory target and clean listing. -/
theorem c3_exit_characterization_witness :
    runMain CatFileState.absent true true
      (some [DirEntry.entry true (some "jar") false]) = Except.ok () :=
  by
  apply (c3_exit_characterization CatFileState.absent true true
    (some [DirEntry.entry true (some "jar") false])).mpr
  refine ⟨by decide, by decide, rfl, rfl, ?_⟩
  exact ⟨[DirEntry.entry true (some "jar") false], rfl, rfl⟩

end MCModFile
